import Mathlib

/-!
Verification development for the multimodal transport graph pipeline
(`Server/graphs_generator`).  The Python sources are shallowly embedded:
float arithmetic is modelled by `ℝ`, GTFS time parsing by `ℤ`-valued
parsing of strings, and the stateful graph construction by explicit list
passing.  The scipy KD-tree nearest-neighbour query is modelled by a
stable insertion sort on the squared raw-coordinate (Euclidean) distance
followed by `take k`; squaring does not change the ordering, and the
exact acceptance test is the Haversine distance, as in the source.
-/

open Classical

/-- Geographic position, `x` = longitude and `y` = latitude, in degrees. -/
structure Coord where
  x : ℝ
  y : ℝ

/-- Degrees to radians, `math.radians`. -/
noncomputable def deg2rad (d : ℝ) : ℝ := d * (Real.pi / 180)

/-- Intermediate `a` of the Haversine formula in `calculate_distance`
(`graph_merger.py` / `bike_to_bixi.py`). -/
noncomputable def hav_a (c1 c2 : Coord) : ℝ :=
  Real.sin ((deg2rad c2.y - deg2rad c1.y) / 2) ^ 2 +
    Real.cos (deg2rad c1.y) * Real.cos (deg2rad c2.y) *
      Real.sin ((deg2rad c2.x - deg2rad c1.x) / 2) ^ 2

/-- `calculate_distance` from `graph_merger.py` (identical copy in
`bike_to_bixi.py`): Haversine great-circle distance, Earth radius 6371 km. -/
noncomputable def calculate_distance (c1 c2 : Coord) : ℝ :=
  6371 * (2 * Real.arcsin (Real.sqrt (hav_a c1 c2)))

/-- Squared raw-coordinate distance used by the KD-tree candidate ordering
(the KD tree orders by Euclidean distance on raw `(x, y)` pairs; squaring
preserves that order). -/
noncomputable def sqDist (q c : Coord) : ℝ := (q.x - c.x) ^ 2 + (q.y - c.y) ^ 2

/-- Model of `KDTree.query(coord, k)`: the `k` candidates nearest to `q` in
raw coordinate space, in ascending order of that approximate distance. -/
noncomputable def kNearest (k : ℕ) (q : Coord) (cands : List (String × Coord)) :
    List (String × Coord) :=
  (cands.insertionSort (fun a b => sqDist q a.2 ≤ sqDist q b.2)).take k

/-- Node of a merged graph as read by `add_transfer_edges`: attribute access
`data.get('x')`, `data.get('y')`, `data.get('travel_mode', data.get('mode', 'unknown'))`. -/
structure MNode where
  id : String
  x : Option ℝ
  y : Option ℝ
  travel_mode : Option String
  mode : Option String

/-- Mode of a node, `data.get('travel_mode', data.get('mode', 'unknown'))`. -/
def nodeMode (n : MNode) : String := n.travel_mode.getD (n.mode.getD "unknown")

/-- Nodes of one mode, in graph iteration order (`nodes_by_mode[mode]`). -/
def nodesByMode (m : String) (ns : List MNode) : List MNode :=
  ns.filter (fun n => nodeMode n = m)

/-- Coordinates of a node when both are present (`coord[0] is not None and
coord[1] is not None`). -/
def nodeCoord (n : MNode) : Option Coord :=
  match n.x, n.y with
  | some x, some y => some ⟨x, y⟩
  | _, _ => none

/-- Transfer edge added by `graph_merger.add_transfer_edges`. -/
structure TEdge where
  src : String
  tgt : String
  travel_mode : String
  travel_time : ℝ
  distance_km : ℝ
  transfer_from : String
  transfer_to : String

/-- `valid_transfers` from `graph_merger.py`. -/
def valid_transfers : List (String × String) :=
  [("car", "transit"), ("car", "bixi"), ("car", "bike"),
   ("bike", "transit"), ("bixi", "transit"),
   ("transit", "car"), ("transit", "bike"), ("transit", "bixi"),
   ("bike", "car"), ("bixi", "car")]

/-- The inner candidate loop of `add_transfer_edges`: scan candidates in the
order returned by the KD-tree query, accept the first whose Haversine
distance is within `0.5` km, build the transfer edge and `break`. -/
noncomputable def scanCandidates (node1 : String) (c1 : Coord) (m1 m2 : String) :
    List (String × Coord) → Option TEdge
  | [] => none
  | (n2, c2) :: rest =>
    if calculate_distance c1 c2 ≤ 0.5 then
      some ⟨node1, n2, "transfer", calculate_distance c1 c2 / 5.0 * 3600,
            calculate_distance c1 c2, m1, m2⟩
    else scanCandidates node1 c1 m1 m2 rest

/-- Candidate list for the target mode: nodes of that mode having both
coordinates (`mode2_coords` / `mode2_nodes`). -/
def candidateList (m2 : String) (ns : List MNode) : List (String × Coord) :=
  (nodesByMode m2 ns).filterMap (fun n => (nodeCoord n).map (fun c => (n.id, c)))

/-- Transfer edges contributed by one ordered mode pair in
`add_transfer_edges`: skip if either mode has no nodes, or either mode is
not in the merged combination, or no target node has coordinates; otherwise
each source node with coordinates queries the KD-tree with
`k = min(3, len(mode2_coords))` and accepts at most one candidate. -/
noncomputable def pairTransfers (ns : List MNode) (modes : List String)
    (p : String × String) : List TEdge :=
  if (nodesByMode p.1 ns).isEmpty ∨ (nodesByMode p.2 ns).isEmpty then []
  else if p.1 ∉ modes ∨ p.2 ∉ modes then []
  else if (candidateList p.2 ns).isEmpty then []
  else
    (nodesByMode p.1 ns).filterMap (fun n1 =>
      (nodeCoord n1).bind (fun c1 =>
        scanCandidates n1.id c1 p.1 p.2
          (kNearest (min 3 (candidateList p.2 ns).length) c1 (candidateList p.2 ns))))

/-- `add_transfer_edges` from `graph_merger.py`: the list of synthesized
transfer edges for a merged graph with node list `ns` and mode combination
`modes` (returns nothing when fewer than two modes). -/
noncomputable def add_transfer_edges (ns : List MNode) (modes : List String) : List TEdge :=
  if modes.length < 2 then [] else valid_transfers.flatMap (pairTransfers ns modes)

/-- BIXI station record consumed by `inject_bixi_into_bike_graph`
(`{"id": .., "x": .., "y": ..}`). -/
structure BixiStation where
  id : String
  x : ℝ
  y : ℝ

/-- Transfer edge added by `inject_bixi_into_bike_graph`. -/
structure BixiEdge where
  src : String
  tgt : String
  travel_mode : String
  travel_time : ℝ
  distance_km : ℝ

/-- The inner candidate loop of `inject_bixi_into_bike_graph`: accept the
first candidate within `maxDist`, add both directed edges tagged
`bixi_transfer`, and `break`. -/
noncomputable def bixiScan (bixi_id : String) (bc : Coord) (maxDist : ℝ) :
    List (String × Coord) → List BixiEdge
  | [] => []
  | (bid, c) :: rest =>
    if calculate_distance bc c ≤ maxDist then
      [⟨bixi_id, bid, "bixi_transfer", calculate_distance bc c / 5.0 * 3600,
        calculate_distance bc c⟩,
       ⟨bid, bixi_id, "bixi_transfer", calculate_distance bc c / 5.0 * 3600,
        calculate_distance bc c⟩]
    else bixiScan bixi_id bc maxDist rest

/-- The transfer edges added by `inject_bixi_into_bike_graph`
(`bike_to_bixi.py`): for every station, query the KD-tree over the bike
nodes with `k = 5` and accept at most one bike node within
`max_transfer_distance_km` (default 0.5), adding both directions. -/
noncomputable def inject_bixi_transfers (bikeNodes : List (String × Coord))
    (stations : List BixiStation) (maxDist : ℝ) : List BixiEdge :=
  stations.flatMap (fun st =>
    bixiScan st.id ⟨st.x, st.y⟩ maxDist (kNearest 5 ⟨st.x, st.y⟩ bikeNodes))

/-- Python `str.split(sep)` on a character list (empty fields kept). -/
def splitCols (sep : Char) : List Char → List (List Char)
  | [] => [[]]
  | c :: cs =>
    if c = sep then [] :: splitCols sep cs
    else
      match splitCols sep cs with
      | [] => [[c]]
      | g :: gs => (c :: g) :: gs

/-- Digit-string parser (helper for Python `int`): `none` when empty or any
character is not a digit. -/
def parseNatChars (cs : List Char) : Option ℕ :=
  if cs.isEmpty then none
  else cs.foldl (fun acc c =>
    acc.bind (fun n => if c.isDigit then some (10 * n + (c.toNat - 48)) else none))
    (some 0)

/-- Python `int(str)`: optional sign followed by digits, `none` on failure. -/
def parseIntChars : List Char → Option ℤ
  | '-' :: cs => (parseNatChars cs).map (fun n => -(n : ℤ))
  | '+' :: cs => (parseNatChars cs).map (fun n => (n : ℤ))
  | cs => (parseNatChars cs).map (fun n => (n : ℤ))

/-- `time_to_seconds` from `public_transport_graph.py`: split on `:`, parse
the three fields as integers (`map(int, ...)` with three-way unpacking),
keep hours ≥ 24 as-is, and return 0 on any parse or arity failure. -/
def time_to_seconds (s : String) : ℤ :=
  match (splitCols ':' s.toList).map parseIntChars with
  | [some h, some m, some sec] => h * 3600 + m * 60 + sec
  | _ => 0

/-- One row of `stop_times.txt` as used by `build_gtfs_graph`. -/
structure StopTimeRow where
  stop_id : String
  stop_sequence : ℤ
  arrival_time : String
  departure_time : String

/-- Travel time of a transit edge between consecutive stops: arrival at the
next stop minus departure from the current stop, with 24 hours added once
when the difference is negative (`build_gtfs_graph`, lines 69-73). -/
def gtfs_travel_time (dep arr : String) : ℤ :=
  let t := time_to_seconds arr - time_to_seconds dep
  if t < 0 then t + 24 * 3600 else t

/-- Transit edge produced by `build_gtfs_graph`. -/
structure TransitEdge where
  src : String
  tgt : String
  travel_time : ℤ

/-- Consecutive pairs of a list (`for i in range(len(trip_data) - 1)`). -/
def consecPairs {α : Type} : List α → List (α × α)
  | a :: b :: rest => (a, b) :: consecPairs (b :: rest)
  | _ => []

/-- Edges built by `build_gtfs_graph` for one trip: sort the trip's rows by
`stop_sequence` (stable, as `pandas.sort_values`) and link consecutive
stops. -/
def tripEdges (rows : List StopTimeRow) : List TransitEdge :=
  (consecPairs (rows.insertionSort (fun a b => a.stop_sequence ≤ b.stop_sequence))).map
    (fun pq => ⟨pq.1.stop_id, pq.2.stop_id,
                gtfs_travel_time pq.1.departure_time pq.2.arrival_time⟩)

/-- `graph_files` keys of `graph_merger.py`: the available per-mode graph
labels. -/
def merger_labels : List String := ["car", "bike", "bixi", "gtfs"]

/-- `is_valid_combo` from `graph_merger.py`. -/
def is_valid_combo (combo : List String) : Bool :=
  if "bike" ∈ combo ∧ "bixi" ∈ combo then false
  else if combo.length < 2 then false
  else true

/-- The combinations enumerated by `graph_merger.main`: all size-`r` subsets
of the labels for `r = 2 .. len(labels)`, filtered by `is_valid_combo`. -/
def generatedCombos (labels : List String) : List (List String) :=
  ((List.range' 2 (labels.length - 1)).flatMap
    (fun r => List.sublistsLen r labels)).filter is_valid_combo

/-- One processed traffic measurement sample: position and (period-scaled)
daily volume. -/
structure TSample where
  lat : ℝ
  lon : ℝ
  volume : ℝ

/-- State of `TrafficDataProcessor` relevant to multiplier queries: the
`time_profiles` mapping built by `process_traffic_data`. -/
structure Processor where
  time_profiles : List (String × List TSample)

/-- Hour-to-period dispatch of `get_traffic_multiplier` (lines 178-186). -/
def getPeriod (hour : ℕ) : String :=
  if 7 ≤ hour ∧ hour ≤ 9 then "morning_rush"
  else if 10 ≤ hour ∧ hour ≤ 15 then "midday"
  else if 16 ≤ hour ∧ hour ≤ 19 then "evening_rush"
  else "night"

/-- Planar-degree distance of a query point to a sample, as computed inside
`get_traffic_multiplier`: 1 degree is 111.32 km and the longitude difference
is scaled by the cosine of the query latitude. -/
noncomputable def sample_distance (lat lon : ℝ) (s : TSample) : ℝ :=
  Real.sqrt (((s.lat - lat) * 111.32) ^ 2 +
    ((s.lon - lon) * 111.32 * Real.cos (deg2rad lat)) ^ 2)

/-- First element of a list minimizing `f` (`idxmin` semantics). -/
noncomputable def argminBy {α : Type} (f : α → ℝ) (a : α) (l : List α) : α :=
  l.foldl (fun best x => if f x < f best then x else best) a

/-- Maximum of `f` over a nonempty list (`profile.max()` semantics). -/
noncomputable def maxBy {α : Type} (f : α → ℝ) (a : α) (l : List α) : ℝ :=
  l.foldl (fun best x => max (f x) best) (f a)

/-- Logistic congestion function of `get_traffic_multiplier`, centered at
0.5 with steepness 5. -/
noncomputable def congestion_level (normalized : ℝ) : ℝ :=
  1 / (1 + Real.exp (-5 * (normalized - 0.5)))

/-- `get_traffic_multiplier` from `traffic_data.py`.  Returns `none` exactly
where the Python raises (empty profile: `idxmin` on an empty series), and
`some m` where the Python returns `m`.  The volume of the nearest sample is
looked up by its coordinates, as `profile[(lat, lon)]` does. -/
noncomputable def get_traffic_multiplier (p : Processor) (lat lon : ℝ) (hour : ℕ) :
    Option ℝ :=
  if p.time_profiles.isEmpty then some 1.0
  else
    match (p.time_profiles.lookup (getPeriod hour)) with
    | none => some 1.0
    | some [] => none
    | some (s0 :: rest) =>
      let nearest := argminBy (sample_distance lat lon) s0 rest
      if 2.0 < sample_distance lat lon nearest then some 1.0
      else
        let volume := (((s0 :: rest).find?
          (fun s => s.lat = nearest.lat ∧ s.lon = nearest.lon)).getD nearest).volume
        let normalized := volume / maxBy TSample.volume s0 rest
        some (1.0 + congestion_level normalized * 2.0)

/-- Distance of the nearest sample of the selected profile to the query
point, when that profile exists and is nonempty (`distances.min()`). -/
noncomputable def nearestSampleDistance (p : Processor) (lat lon : ℝ) (hour : ℕ) :
    Option ℝ :=
  match (p.time_profiles.lookup (getPeriod hour)) with
  | none => none
  | some [] => none
  | some (s0 :: rest) =>
    some (sample_distance lat lon (argminBy (sample_distance lat lon) s0 rest))

/-- `highway_penalties` dictionary of `_calculate_zoning_penalty`, with the
`.get(highway_type, 1.2)` default. -/
noncomputable def highwayFactor (t : String) : ℝ :=
  if t = "motorway" then 1.0
  else if t = "trunk" then 1.1
  else if t = "primary" then 1.2
  else if t = "secondary" then 1.3
  else if t = "tertiary" then 1.4
  else if t = "residential" then 1.1
  else if t = "service" then 1.2
  else if t = "unclassified" then 1.3
  else 1.2

/-- Downtown-distance tier factor of `_calculate_zoning_penalty`
(lines 340-346). -/
noncomputable def tierFactor (d : ℝ) : ℝ :=
  if d ≤ 2.0 then 1.8
  else if d ≤ 5.0 then 1.5
  else if d ≤ 10.0 then 1.2
  else 1.0

/-- Edge attributes read by `_calculate_zoning_penalty`. -/
structure ZEdgeData where
  highway : Option String
  amenity : Option String
  landuse : Option String
  shop : Option String
  tourism : Option String

/-- `commercial_indicators` of `_calculate_zoning_penalty`. -/
def commercial_indicators : List String :=
  ["commercial", "retail", "shop", "restaurant",
   "hospital", "school", "university", "mall"]

/-- Character-list prefix test (helper for the substring check). -/
def charsPrefixOf : List Char → List Char → Bool
  | [], _ => true
  | _ :: _, [] => false
  | a :: as, b :: bs => a = b && charsPrefixOf as bs

/-- Character-list substring test (Python's `needle in haystack`). -/
def charsContains (needle : List Char) : List Char → Bool
  | [] => needle.isEmpty
  | b :: bs => charsPrefixOf needle (b :: bs) || charsContains needle bs

/-- One attribute value matches when some indicator is a substring of its
lowercased form (`indicator in str(value).lower()`). -/
def isCommercialValue (v : String) : Bool :=
  commercial_indicators.any (fun ind => charsContains ind.toList v.toLower.toList)

/-- Commercial-attribute factor: ×1.3 when any present attribute among
amenity/landuse/shop/tourism matches (the `break` makes the bonus apply at
most once). -/
noncomputable def commercialFactor (e : ZEdgeData) : ℝ :=
  if ([e.amenity, e.landuse, e.shop, e.tourism].any
      (fun v => match v with | some s => isCommercialValue s | none => false)) then 1.3
  else 1.0

/-- `calculate_distance_km` from `traffic_data.py`: planar-degree
approximation with the longitude difference scaled by the cosine of the
average latitude. -/
noncomputable def calculate_distance_km (lat1 lon1 lat2 lon2 : ℝ) : ℝ :=
  Real.sqrt (((lat2 - lat1) * 111.32) ^ 2 +
    ((lon2 - lon1) * 111.32 * Real.cos (deg2rad ((lat1 + lat2) / 2))) ^ 2)

/-- Distance of a position to the fixed downtown reference point
`self.downtown_center` (Place Ville Marie). -/
noncomputable def downtownDistance (lat lon : ℝ) : ℝ :=
  calculate_distance_km lat lon 45.5017 (-73.5673)

/-- Traffic-damping factor of `_calculate_zoning_penalty` step 4: applied
only when `self.time_profiles` is nonempty, at half strength; `none` when
the inner multiplier query raises. -/
noncomputable def zoningDamping (p : Processor) (lat lon : ℝ) (hour : ℕ) : Option ℝ :=
  if p.time_profiles.isEmpty then some 1.0
  else (get_traffic_multiplier p lat lon hour).map (fun t => 1.0 + (t - 1.0) * 0.5)

/-- `_calculate_zoning_penalty` from `traffic_data.py`: road-class factor,
downtown-distance tier, commercial bonus and traffic damping, capped at 3.0. -/
noncomputable def calculate_zoning_penalty (e : ZEdgeData) (p : Processor)
    (lat lon : ℝ) (hour : ℕ) : Option ℝ :=
  (zoningDamping p lat lon hour).map (fun td =>
    min (1.0 * highwayFactor (e.highway.getD "residential")
          * tierFactor (downtownDistance lat lon)
          * commercialFactor e * td) 3.0)

/-- Edge attributes read by `effective_edge_cost` in `quick_test.py`. -/
structure QEdge where
  travel_time : Option ℝ
  travel_mode : Option String

/-- Modelled from the spec: the `Mode` enumeration imported from
`multimodal_graph_utils` is not among the sources; per the spec's
per-mode adjustments (car, transit, pedestrian, bike), its `value`
strings are taken to be the mode names used in the graph schema. -/
def modeCarValue : String := "car"

/-- Modelled from the spec: `Mode.GTFS.value`, the transit mode label. -/
def modeGtfsValue : String := "transit"

/-- Modelled from the spec: `Mode.WALK.value`, the pedestrian mode label. -/
def modeWalkValue : String := "pedestrian"

/-- Modelled from the spec: `Mode.BIKE.value`, the bike mode label. -/
def modeBikeValue : String := "bike"

/-- `effective_edge_cost` from `quick_test.py`: start from `travel_time`
(default 0), apply the per-mode adjustments, floor at 0.1. -/
noncomputable def effective_edge_cost (e : QEdge) : ℝ :=
  let cost0 := e.travel_time.getD 0
  let mode := e.travel_mode.getD ""
  let cost1 := if mode = modeCarValue then cost0 + 30 else cost0
  let cost2 := if mode = modeGtfsValue then cost1 - 15 else cost1
  let cost3 := if mode = modeWalkValue then cost2 - 5 else cost2
  let cost4 := if mode = modeBikeValue then cost3 - 10 else cost3
  max cost4 0.1

/-- Per-mode adjustment as the spec words it (car +30 s penalty, transit
−15 s bonus, pedestrian −5 s bonus, bike −10 s bonus, 0 otherwise); used to
compare `effective_edge_cost` against the specified behaviour. -/
noncomputable def specModeAdjustment (mode : String) : ℝ :=
  if mode = "car" then 30
  else if mode = "transit" then -15
  else if mode = "pedestrian" then -5
  else if mode = "bike" then -10
  else 0

/-- Keyed edge of a merged (multi)graph, as serialized by the pipeline. -/
structure MEdgeRec where
  src : String
  tgt : String
  key : ℕ
  travel_mode : Option String
  travel_time : Option ℝ
  distance_km : Option ℝ
  trip_id : Option String

/-- A loaded graph: node list and keyed edge list, in iteration order. -/
structure MGraph where
  nodes : List MNode
  edges : List MEdgeRec

/-- Right-biased attribute update for nodes (`networkx` attribute dicts are
updated with the second graph's attributes taking precedence). -/
def updNode (old new : MNode) : MNode :=
  ⟨old.id, new.x.or old.x, new.y.or old.y,
   new.travel_mode.or old.travel_mode, new.mode.or old.mode⟩

/-- Right-biased attribute update for edges. -/
def updEdge (old new : MEdgeRec) : MEdgeRec :=
  ⟨old.src, old.tgt, old.key, new.travel_mode.or old.travel_mode,
   new.travel_time.or old.travel_time, new.distance_km.or old.distance_km,
   new.trip_id.or old.trip_id⟩

/-- `networkx.compose g h`: nodes of `g` (attributes updated from `h` where
the same identifier occurs in both) followed by the nodes only in `h`;
likewise for keyed edges. -/
def composeG (g h : MGraph) : MGraph :=
  ⟨(g.nodes.map (fun n =>
      match h.nodes.find? (fun m => m.id = n.id) with
      | some m => updNode n m
      | none => n)) ++
     h.nodes.filter (fun m => (g.nodes.find? (fun n => n.id = m.id)).isNone),
   (g.edges.map (fun e =>
      match h.edges.find? (fun f => f.src = e.src ∧ f.tgt = e.tgt ∧ f.key = e.key) with
      | some f => updEdge e f
      | none => e)) ++
     h.edges.filter (fun f =>
       (g.edges.find? (fun e => e.src = f.src ∧ e.tgt = f.tgt ∧ e.key = f.key)).isNone)⟩

/-- `networkx.compose_all`, folding `compose` over the input graphs. -/
def compose_all (gs : List MGraph) : MGraph :=
  gs.foldl composeG ⟨[], []⟩

/-- With equal longitudes the second Haversine term vanishes. -/
lemma hav_a_same_lon (x y1 y2 : ℝ) :
    hav_a ⟨x, y1⟩ ⟨x, y2⟩ = Real.sin ((deg2rad y2 - deg2rad y1) / 2) ^ 2 := by
  unfold hav_a
  simp [sub_self, Real.sin_zero]

/-- The Haversine distance vanishes when the latitude half-angle has sine 0
and the longitudes agree. -/
lemma cd_same_lon_zero (x y1 y2 : ℝ)
    (h : Real.sin ((deg2rad y2 - deg2rad y1) / 2) = 0) :
    calculate_distance ⟨x, y1⟩ ⟨x, y2⟩ = 0 := by
  unfold calculate_distance
  rw [hav_a_same_lon, h]
  simp

/-- The Haversine distance is `6371·π` when the latitude half-angle has
squared sine 1 and the longitudes agree. -/
lemma cd_same_lon_pi (x y1 y2 : ℝ)
    (h : Real.sin ((deg2rad y2 - deg2rad y1) / 2) ^ 2 = 1) :
    calculate_distance ⟨x, y1⟩ ⟨x, y2⟩ = 6371 * Real.pi := by
  unfold calculate_distance
  rw [hav_a_same_lon, h, Real.sqrt_one, Real.arcsin_one]
  ring

/-- Distance between the degenerate antipodal-looking pair `(x,0)`–`(x,360)`
is 0 (a full turn of latitude). -/
lemma cd_x0_x360 (x : ℝ) : calculate_distance ⟨x, 0⟩ ⟨x, 360⟩ = 0 := by
  apply cd_same_lon_zero
  have h : (deg2rad 360 - deg2rad 0) / 2 = Real.pi := by unfold deg2rad; ring
  rw [h, Real.sin_pi]

lemma cd_x360_x0 (x : ℝ) : calculate_distance ⟨x, 360⟩ ⟨x, 0⟩ = 0 := by
  apply cd_same_lon_zero
  have h : (deg2rad 0 - deg2rad 360) / 2 = -Real.pi := by unfold deg2rad; ring
  rw [h, Real.sin_neg, Real.sin_pi, neg_zero]

lemma cd_x0_x720 (x : ℝ) : calculate_distance ⟨x, 0⟩ ⟨x, 720⟩ = 0 := by
  apply cd_same_lon_zero
  have h : (deg2rad 720 - deg2rad 0) / 2 = 2 * Real.pi := by unfold deg2rad; ring
  rw [h, Real.sin_two_pi]

lemma cd_x720_x0 (x : ℝ) : calculate_distance ⟨x, 720⟩ ⟨x, 0⟩ = 0 := by
  apply cd_same_lon_zero
  have h : (deg2rad 0 - deg2rad 720) / 2 = -(2 * Real.pi) := by unfold deg2rad; ring
  rw [h, Real.sin_neg, Real.sin_two_pi, neg_zero]

lemma cd_x0_x1080 (x : ℝ) : calculate_distance ⟨x, 0⟩ ⟨x, 1080⟩ = 0 := by
  apply cd_same_lon_zero
  have h : (deg2rad 1080 - deg2rad 0) / 2 = Real.pi + 2 * Real.pi := by
    unfold deg2rad; ring
  rw [h, Real.sin_add_two_pi, Real.sin_pi]

lemma cd_x1080_x0 (x : ℝ) : calculate_distance ⟨x, 1080⟩ ⟨x, 0⟩ = 0 := by
  apply cd_same_lon_zero
  have h : (deg2rad 0 - deg2rad 1080) / 2 = -(Real.pi + 2 * Real.pi) := by
    unfold deg2rad; ring
  rw [h, Real.sin_neg, Real.sin_add_two_pi, Real.sin_pi, neg_zero]

lemma cd_x0_x180 (x : ℝ) : calculate_distance ⟨x, 0⟩ ⟨x, 180⟩ = 6371 * Real.pi := by
  apply cd_same_lon_pi
  have h : (deg2rad 180 - deg2rad 0) / 2 = Real.pi / 2 := by unfold deg2rad; ring
  rw [h, Real.sin_pi_div_two]; norm_num

lemma cd_x180_x0 (x : ℝ) : calculate_distance ⟨x, 180⟩ ⟨x, 0⟩ = 6371 * Real.pi := by
  apply cd_same_lon_pi
  have h : (deg2rad 0 - deg2rad 180) / 2 = -(Real.pi / 2) := by unfold deg2rad; ring
  rw [h, Real.sin_neg, Real.sin_pi_div_two]; norm_num

lemma cd_x0_x540 (x : ℝ) : calculate_distance ⟨x, 0⟩ ⟨x, 540⟩ = 6371 * Real.pi := by
  apply cd_same_lon_pi
  have h : (deg2rad 540 - deg2rad 0) / 2 = Real.pi / 2 + Real.pi := by
    unfold deg2rad; ring
  rw [h, Real.sin_add_pi, Real.sin_pi_div_two]; norm_num

lemma cd_x540_x0 (x : ℝ) : calculate_distance ⟨x, 540⟩ ⟨x, 0⟩ = 6371 * Real.pi := by
  apply cd_same_lon_pi
  have h : (deg2rad 0 - deg2rad 540) / 2 = -(Real.pi / 2 + Real.pi) := by
    unfold deg2rad; ring
  rw [h, Real.sin_neg, Real.sin_add_pi, Real.sin_pi_div_two]; norm_num

lemma cd_x0_x900 (x : ℝ) : calculate_distance ⟨x, 0⟩ ⟨x, 900⟩ = 6371 * Real.pi := by
  apply cd_same_lon_pi
  have h : (deg2rad 900 - deg2rad 0) / 2 = Real.pi / 2 + 2 * Real.pi := by
    unfold deg2rad; ring
  rw [h, Real.sin_add_two_pi, Real.sin_pi_div_two]; norm_num

lemma cd_x900_x0 (x : ℝ) : calculate_distance ⟨x, 900⟩ ⟨x, 0⟩ = 6371 * Real.pi := by
  apply cd_same_lon_pi
  have h : (deg2rad 0 - deg2rad 900) / 2 = -(Real.pi / 2 + 2 * Real.pi) := by
    unfold deg2rad; ring
  rw [h, Real.sin_neg, Real.sin_add_two_pi, Real.sin_pi_div_two]; norm_num

/-- `6371·π` is far beyond the 0.5 km transfer threshold. -/
lemma cd_pi_not_small : ¬ (6371 * Real.pi ≤ 0.5) := by
  have h := Real.pi_gt_three
  nlinarith

/-- Soundness of the inner candidate scan of `add_transfer_edges`: an
accepted edge records the Haversine distance to one of the scanned
candidates, that distance is within the 0.5 km threshold, and the walking
time formula is applied to it. -/
lemma scanCandidates_sound (cands : List (String × Coord)) :
    ∀ (n1 : String) (c1 : Coord) (m1 m2 : String) (e : TEdge),
      scanCandidates n1 c1 m1 m2 cands = some e →
      e.src = n1 ∧ e.travel_mode = "transfer" ∧ e.transfer_from = m1 ∧
        e.transfer_to = m2 ∧
        ∃ c2, (e.tgt, c2) ∈ cands ∧ e.distance_km = calculate_distance c1 c2 ∧
          calculate_distance c1 c2 ≤ 0.5 ∧
          e.travel_time = calculate_distance c1 c2 / 5.0 * 3600 := by
  induction cands with
  | nil =>
    intro n1 c1 m1 m2 e h
    simp [scanCandidates] at h
  | cons hd tl ih =>
    intro n1 c1 m1 m2 e h
    obtain ⟨n2, c2⟩ := hd
    rw [scanCandidates] at h
    by_cases hc : calculate_distance c1 c2 ≤ 0.5
    · rw [if_pos hc] at h
      cases h
      exact ⟨rfl, rfl, rfl, rfl, c2, List.mem_cons_self _ _, rfl, hc, rfl⟩
    · rw [if_neg hc] at h
      obtain ⟨h1, h2, h3, h4, c2', hmem, h5⟩ := ih n1 c1 m1 m2 e h
      exact ⟨h1, h2, h3, h4, c2', List.mem_cons_of_mem _ hmem, h5⟩

/-- The KD-tree query only returns elements of the candidate list. -/
lemma kNearest_subset (k : ℕ) (q : Coord) (cands : List (String × Coord)) :
    ∀ x ∈ kNearest k q cands, x ∈ cands := by
  intro x hx
  have h1 : x ∈ cands.insertionSort (fun a b => sqDist q a.2 ≤ sqDist q b.2) :=
    List.take_subset _ _ hx
  exact (List.perm_insertionSort _ cands).subset h1

/-- Every candidate pair comes from a node of the target mode carrying both
coordinates. -/
lemma candidateList_mem {m2 : String} {ns : List MNode} {idc : String × Coord}
    (h : idc ∈ candidateList m2 ns) :
    ∃ n, n ∈ ns ∧ n.id = idc.1 ∧ nodeCoord n = some idc.2 := by
  unfold candidateList at h
  obtain ⟨n, hn, hmap⟩ := List.mem_filterMap.mp h
  obtain ⟨c, hc, heq⟩ := Option.map_eq_some'.mp hmap
  refine ⟨n, (List.mem_filter.mp hn).1, ?_, ?_⟩
  · rw [← heq]
  · rw [hc, ← heq]

/-- Every edge of `pairTransfers` comes from a scan rooted at a node of the
source mode with coordinates. -/
lemma pairTransfers_sound {ns : List MNode} {modes : List String}
    {p : String × String} {e : TEdge} (h : e ∈ pairTransfers ns modes p) :
    ∃ n1, n1 ∈ ns ∧ ∃ c1, nodeCoord n1 = some c1 ∧
      scanCandidates n1.id c1 p.1 p.2
        (kNearest (min 3 (candidateList p.2 ns).length) c1 (candidateList p.2 ns)) =
        some e := by
  unfold pairTransfers at h
  split at h
  · simp at h
  split at h
  · simp at h
  split at h
  · simp at h
  obtain ⟨n1, hn1, hb⟩ := List.mem_filterMap.mp h
  obtain ⟨c1, hc1, hscan⟩ := Option.bind_eq_some.mp hb
  exact ⟨n1, (List.mem_filter.mp hn1).1, c1, hc1, hscan⟩

/-- Every synthesized transfer edge arises from some allow-listed pair. -/
lemma add_transfer_edges_sound {ns : List MNode} {modes : List String}
    {e : TEdge} (h : e ∈ add_transfer_edges ns modes) :
    ∃ p, p ∈ valid_transfers ∧ e ∈ pairTransfers ns modes p := by
  unfold add_transfer_edges at h
  split at h
  · simp at h
  · exact List.mem_flatMap.mp h

/-- Soundness of the inner candidate scan of `inject_bixi_into_bike_graph`. -/
lemma bixiScan_sound (cands : List (String × Coord)) :
    ∀ (bid : String) (bc : Coord) (maxDist : ℝ) (e : BixiEdge),
      e ∈ bixiScan bid bc maxDist cands →
      e.travel_mode = "bixi_transfer" ∧
        ∃ b, b ∈ cands ∧ e.distance_km = calculate_distance bc b.2 ∧
          calculate_distance bc b.2 ≤ maxDist ∧
          e.travel_time = calculate_distance bc b.2 / 5.0 * 3600 ∧
          ((e.src = bid ∧ e.tgt = b.1) ∨ (e.src = b.1 ∧ e.tgt = bid)) := by
  induction cands with
  | nil =>
    intro bid bc maxDist e h
    simp [bixiScan] at h
  | cons hd tl ih =>
    intro bid bc maxDist e h
    obtain ⟨bid2, c⟩ := hd
    rw [bixiScan] at h
    by_cases hc : calculate_distance bc c ≤ maxDist
    · rw [if_pos hc] at h
      simp only [List.mem_cons, List.not_mem_nil, or_false] at h
      rcases h with rfl | rfl
      · exact ⟨rfl, (bid2, c), List.mem_cons_self _ _, rfl, hc, rfl,
               Or.inl ⟨rfl, rfl⟩⟩
      · exact ⟨rfl, (bid2, c), List.mem_cons_self _ _, rfl, hc, rfl,
               Or.inr ⟨rfl, rfl⟩⟩
    · rw [if_neg hc] at h
      obtain ⟨h1, b, hmem, h2⟩ := ih bid bc maxDist e h
      exact ⟨h1, b, List.mem_cons_of_mem _ hmem, h2⟩

/-- Claim C1: for every transfer edge synthesized between two modes, in any
merged graph (`add_transfer_edges`) or injected graph
(`inject_bixi_transfers`), the Haversine distance (Earth radius 6371 km)
between its endpoints is at most the configured threshold (0.5 km for the
merger, `maxDist` with default 0.5 for the bixi injection), its recorded
`distance_km` is exactly that Haversine value — never the raw
coordinate-space distance — and its `travel_time` equals
`distance_km / walking_speed_kmh * 3600` with walking speed 5 km/h. -/
theorem c1_transfer_edges_haversine_bounded :
    (∀ (ns : List MNode) (modes : List String) (e : TEdge),
       e ∈ add_transfer_edges ns modes →
       e.distance_km ≤ 0.5 ∧ e.travel_time = e.distance_km / 5.0 * 3600 ∧
       ∃ n1 n2, n1 ∈ ns ∧ n2 ∈ ns ∧ e.src = n1.id ∧ e.tgt = n2.id ∧
         ∃ c1 c2, nodeCoord n1 = some c1 ∧ nodeCoord n2 = some c2 ∧
           e.distance_km = calculate_distance c1 c2) ∧
    (∀ (bikeNodes : List (String × Coord)) (stations : List BixiStation)
       (maxDist : ℝ) (e : BixiEdge),
       e ∈ inject_bixi_transfers bikeNodes stations maxDist →
       e.distance_km ≤ maxDist ∧ e.travel_time = e.distance_km / 5.0 * 3600 ∧
       ∃ st b, st ∈ stations ∧ b ∈ bikeNodes ∧
         e.distance_km = calculate_distance ⟨st.x, st.y⟩ b.2 ∧
         ((e.src = st.id ∧ e.tgt = b.1) ∨ (e.src = b.1 ∧ e.tgt = st.id))) := by
  constructor
  · intro ns modes e h
    obtain ⟨p, _, hp⟩ := add_transfer_edges_sound h
    obtain ⟨n1, hn1, c1, hc1, hscan⟩ := pairTransfers_sound hp
    obtain ⟨hsrc, _, _, _, c2, hmem, hdist, hle, htime⟩ :=
      scanCandidates_sound _ _ _ _ _ _ hscan
    have hcand : (e.tgt, c2) ∈ candidateList p.2 ns :=
      kNearest_subset _ _ _ _ hmem
    obtain ⟨n2, hn2, hid2, hcoord2⟩ := candidateList_mem hcand
    refine ⟨hdist ▸ hle, by rw [htime, hdist], n1, n2, hn1, hn2, hsrc, hid2.symm,
            c1, c2, hc1, hcoord2, hdist⟩
  · intro bikeNodes stations maxDist e h
    obtain ⟨st, hst, hscan⟩ := List.mem_flatMap.mp h
    obtain ⟨h1, b, hmem, hdist, hle, htime, hdir⟩ :=
      bixiScan_sound _ _ _ _ _ hscan
    have hbn : b ∈ bikeNodes := kNearest_subset _ _ _ _ hmem
    exact ⟨hdist ▸ hle, by rw [htime, hdist], st, b, hst, hbn, hdist, hdir⟩

/-- Concrete node list for the C1 witness: one car node at `(0,0)` and one
bike node at `(0,360)` (Haversine distance 0, raw-coordinate distance 360). -/
def c1wNodes : List MNode :=
  [⟨"a", some 0, some 0, some "car", none⟩,
   ⟨"b", some 0, some 360, some "bike", none⟩]

/-- The transfer edge produced for the C1 witness input. -/
noncomputable def c1wEdge : TEdge :=
  ⟨"a", "b", "transfer", calculate_distance ⟨0, 0⟩ ⟨0, 360⟩ / 5.0 * 3600,
   calculate_distance ⟨0, 0⟩ ⟨0, 360⟩, "car", "bike"⟩

lemma c1w_mem : c1wEdge ∈ add_transfer_edges c1wNodes ["car", "bike"] := by
  have hscan : scanCandidates "a" ⟨0, 0⟩ "car" "bike" [("b", ⟨(0 : ℝ), 360⟩)] =
      some c1wEdge := by
    rw [scanCandidates, if_pos (by rw [cd_x0_x360]; norm_num)]
    rfl
  have hm : c1wEdge ∈ pairTransfers c1wNodes ["car", "bike"] ("car", "bike") := by
    unfold pairTransfers
    rw [if_neg (by decide), if_neg (by decide), if_neg (by decide)]
    refine List.mem_filterMap.mpr ⟨⟨"a", some 0, some 0, some "car", none⟩, ?_, ?_⟩
    · have h1 : nodesByMode "car" c1wNodes =
          [⟨"a", some 0, some 0, some "car", none⟩] := rfl
      rw [h1]
      exact List.mem_cons_self _ _
    · have hred : (nodeCoord ⟨"a", some 0, some 0, some "car", none⟩).bind
          (fun c1 => scanCandidates "a" c1 "car" "bike"
            (kNearest (min 3 (candidateList "bike" c1wNodes).length) c1
              (candidateList "bike" c1wNodes))) =
          scanCandidates "a" ⟨0, 0⟩ "car" "bike" [("b", ⟨(0 : ℝ), 360⟩)] := rfl
      exact hred.trans hscan
  unfold add_transfer_edges
  rw [if_neg (by norm_num)]
  exact List.mem_flatMap.mpr ⟨("car", "bike"), by decide, hm⟩

/-- Witness for C1: the theorem applied at the concrete input above. -/
theorem c1_transfer_edges_haversine_bounded_witness :
    (c1wEdge ∈ add_transfer_edges c1wNodes ["car", "bike"]) ∧
    (c1wEdge.distance_km ≤ 0.5 ∧
     c1wEdge.travel_time = c1wEdge.distance_km / 5.0 * 3600 ∧
     ∃ n1 n2, n1 ∈ c1wNodes ∧ n2 ∈ c1wNodes ∧ c1wEdge.src = n1.id ∧
       c1wEdge.tgt = n2.id ∧
       ∃ c1 c2, nodeCoord n1 = some c1 ∧ nodeCoord n2 = some c2 ∧
         c1wEdge.distance_km = calculate_distance c1 c2) :=
  ⟨c1w_mem,
   c1_transfer_edges_haversine_bounded.1 c1wNodes ["car", "bike"] c1wEdge c1w_mem⟩

/-- Claim C4 (code bug): a transit edge built from consecutive stop-time
rows whose departure time parses beyond 24:00:00 and whose next arrival
time is unparsable (parse fallback 0) gets travel time
`0 - 90000 + 86400 = -3600 < 0`: the single `+24h` correction of
`build_gtfs_graph` does not restore non-negativity. -/
theorem c4_gtfs_negative_travel_time :
    tripEdges [⟨"stop_A", 1, "25:00:00", "25:00:00"⟩,
               ⟨"stop_B", 2, "not a time", "not a time"⟩] =
      [⟨"stop_A", "stop_B", -3600⟩] ∧ (-3600 : ℤ) < 0 := by
  constructor
  · rfl
  · decide

/-- Membership in the enumerated merge combinations is exactly: a subset of
the labels, of size at least 2, not containing both bike and bixi. -/
lemma generatedCombos_char (combo : List String) :
    combo ∈ generatedCombos merger_labels ↔
      combo.Sublist merger_labels ∧ 2 ≤ combo.length ∧
        ¬("bike" ∈ combo ∧ "bixi" ∈ combo) := by
  unfold generatedCombos merger_labels
  rw [List.mem_filter, List.mem_flatMap]
  constructor
  · rintro ⟨⟨r, hr, hc⟩, hvalid⟩
    rw [List.mem_sublistsLen] at hc
    rw [List.mem_range'] at hr
    obtain ⟨i, hi, hri⟩ := hr
    refine ⟨hc.1, ?_, ?_⟩
    · omega
    · intro hboth
      unfold is_valid_combo at hvalid
      rw [if_pos hboth] at hvalid
      exact Bool.false_ne_true hvalid
  · rintro ⟨hsub, hlen, hnot⟩
    have hle : combo.length ≤ 4 := by
      have := hsub.length_le
      simpa using this
    refine ⟨⟨combo.length, ?_, ?_⟩, ?_⟩
    · rw [List.mem_range']
      exact ⟨combo.length - 2, by simp; omega, by omega⟩
    · rw [List.mem_sublistsLen]
      exact ⟨hsub, rfl⟩
    · unfold is_valid_combo
      rw [if_neg hnot, if_neg (by omega)]

/-- Claim C5: a merged output is produced for exactly the candidate subsets
of size at least 2 that do not contain both bike and bike-share (label
`bixi`); consequently no produced combination contains both. -/
theorem c5_valid_combos :
    (∀ combo : List String,
       combo ∈ generatedCombos merger_labels ↔
         combo.Sublist merger_labels ∧ 2 ≤ combo.length ∧
           ¬("bike" ∈ combo ∧ "bixi" ∈ combo)) ∧
    (∀ combo ∈ generatedCombos merger_labels,
       ¬("bike" ∈ combo ∧ "bixi" ∈ combo)) :=
  ⟨generatedCombos_char,
   fun combo h => ((generatedCombos_char combo).mp h).2.2⟩

/-- Witness for C5: the car+transit subset is produced, the bike+bixi
subset is not. -/
theorem c5_valid_combos_witness :
    ["car", "gtfs"] ∈ generatedCombos merger_labels ∧
    ["bike", "bixi"] ∉ generatedCombos merger_labels :=
  ⟨(c5_valid_combos.1 ["car", "gtfs"]).mpr (by refine ⟨?_, by decide, by decide⟩; decide),
   fun h => absurd ⟨by decide, by decide⟩ (c5_valid_combos.2 ["bike", "bixi"] h)⟩

/-- Claim C9: the edge cost function always returns at least 0.1, and it
equals the travel time (default 0) plus the per-mode adjustment the spec
describes (car +30 s, transit −15 s, pedestrian −5 s, bike −10 s, 0 for any
other mode), floored at 0.1. -/
theorem c9_edge_cost_floor :
    ∀ e : QEdge, 0.1 ≤ effective_edge_cost e ∧
      effective_edge_cost e =
        max (e.travel_time.getD 0 + specModeAdjustment (e.travel_mode.getD "")) 0.1 := by
  intro e
  unfold effective_edge_cost specModeAdjustment modeCarValue modeGtfsValue
    modeWalkValue modeBikeValue
  refine ⟨le_max_right _ _, ?_⟩
  by_cases h1 : e.travel_mode.getD "" = "car"
  · simp [h1]
  · by_cases h2 : e.travel_mode.getD "" = "transit"
    · simp [h1, h2]
      ring_nf
    · by_cases h3 : e.travel_mode.getD "" = "pedestrian"
      · simp [h1, h2, h3]
        ring_nf
      · by_cases h4 : e.travel_mode.getD "" = "bike"
        · simp [h1, h2, h3, h4]
          ring_nf
        · simp [h1, h2, h3, h4]

/-- Claim C10: when no time profiles have been built, the traffic
multiplier query returns exactly the neutral value 1.0 (and in particular
does not fail), for every position and timestamp. -/
theorem c10_no_profiles_neutral :
    ∀ (lat lon : ℝ) (hour : ℕ),
      get_traffic_multiplier ⟨[]⟩ lat lon hour = some 1.0 := by
  intro lat lon hour
  rfl

/-- The logistic congestion level lies strictly between 0 and 1. -/
lemma congestion_level_bounds (x : ℝ) :
    0 < congestion_level x ∧ congestion_level x < 1 := by
  unfold congestion_level
  have h : 0 < 1 + Real.exp (-5 * (x - 0.5)) := by positivity
  constructor
  · positivity
  · rw [div_lt_one h]
    have := Real.exp_pos (-5 * (x - 0.5))
    linarith

/-- Any returned traffic multiplier lies in `[1, 3]`. -/
lemma gtm_range {p : Processor} {lat lon : ℝ} {hour : ℕ} {m : ℝ}
    (h : get_traffic_multiplier p lat lon hour = some m) : 1 ≤ m ∧ m ≤ 3 := by
  unfold get_traffic_multiplier at h
  split at h
  · cases h
    norm_num
  · split at h
    · cases h
      norm_num
    · cases h
    · dsimp only at h
      split at h
      · cases h
        norm_num
      · cases h
        rename_i s0 rest hlook hdist
        have hb := congestion_level_bounds
          ((((s0 :: rest).find? (fun s =>
              s.lat = (argminBy (sample_distance lat lon) s0 rest).lat ∧
              s.lon = (argminBy (sample_distance lat lon) s0 rest).lon)).getD
            (argminBy (sample_distance lat lon) s0 rest)).volume /
            maxBy TSample.volume s0 rest)
        constructor <;> nlinarith [hb.1, hb.2]

/-- Claim C8: every traffic multiplier returned against a processed model is
in `[1.0, 3.0]`, and it is exactly `1.0` whenever the nearest sample of the
selected profile (by planar-degree distance with the longitude scaled by
the cosine of the query latitude) is more than 2.0 km away. -/
theorem c8_traffic_multiplier_range :
    ∀ (p : Processor) (lat lon : ℝ) (hour : ℕ),
      (∀ m, get_traffic_multiplier p lat lon hour = some m → 1 ≤ m ∧ m ≤ 3) ∧
      (∀ d, nearestSampleDistance p lat lon hour = some d → 2.0 < d →
        get_traffic_multiplier p lat lon hour = some 1.0) := by
  intro p lat lon hour
  constructor
  · intro m h
    exact gtm_range h
  · intro d hd h2
    unfold nearestSampleDistance at hd
    unfold get_traffic_multiplier
    split
    · rfl
    · split
      · rfl
      · rename_i hlook
        rw [hlook] at hd
        cases hd
      · rename_i s0 rest hlook
        rw [hlook] at hd
        cases hd
        rw [if_pos h2]

/-- Concrete processed model for the C8 witness: one night-profile sample
one degree of longitude away from the query point. -/
def c8wP : Processor := ⟨[("night", [⟨0, 1, 100⟩])]⟩

lemma c8w_dist : sample_distance 0 0 ⟨0, 1, 100⟩ = 111.32 := by
  unfold sample_distance deg2rad
  rw [zero_mul, Real.cos_zero]
  rw [show ((0 : ℝ) - 0) * 111.32 = 0 by norm_num,
      show ((1 : ℝ) - 0) * 111.32 * 1 = 111.32 by norm_num,
      show (0 : ℝ) ^ 2 + 111.32 ^ 2 = 111.32 ^ 2 by ring]
  exact Real.sqrt_sq (by norm_num)

lemma c8w_nearest : nearestSampleDistance c8wP 0 0 23 = some 111.32 := by
  have h : nearestSampleDistance c8wP 0 0 23 =
      some (sample_distance 0 0 ⟨0, 1, 100⟩) := rfl
  rw [h, c8w_dist]

/-- Witness for C8: at the concrete model above the nearest sample is
111.32 km away, beyond 2 km, so the multiplier is exactly 1.0 (which is in
`[1, 3]`). -/
theorem c8_traffic_multiplier_range_witness :
    nearestSampleDistance c8wP 0 0 23 = some 111.32 ∧ (2.0 : ℝ) < 111.32 ∧
    get_traffic_multiplier c8wP 0 0 23 = some 1.0 ∧
    (1 : ℝ) ≤ 1.0 ∧ (1.0 : ℝ) ≤ 3 := by
  have hm := (c8_traffic_multiplier_range c8wP 0 0 23).2 111.32 c8w_nearest
    (by norm_num)
  exact ⟨c8w_nearest, by norm_num, hm,
    ((c8_traffic_multiplier_range c8wP 0 0 23).1 1.0 hm).1,
    ((c8_traffic_multiplier_range c8wP 0 0 23).1 1.0 hm).2⟩

/-- Every road-class factor is at least 1. -/
lemma highwayFactor_ge_one (t : String) : 1 ≤ highwayFactor t := by
  unfold highwayFactor
  split_ifs <;> norm_num

/-- Every downtown tier factor is at least 1. -/
lemma tierFactor_ge_one (d : ℝ) : 1 ≤ tierFactor d := by
  unfold tierFactor
  split_ifs <;> norm_num

/-- The tier factor does not increase with the downtown distance. -/
lemma tierFactor_antitone {d1 d2 : ℝ} (h : d1 ≤ d2) :
    tierFactor d2 ≤ tierFactor d1 := by
  unfold tierFactor
  split_ifs <;> linarith

/-- The commercial factor is at least 1. -/
lemma commercialFactor_ge_one (e : ZEdgeData) : 1 ≤ commercialFactor e := by
  unfold commercialFactor
  split_ifs <;> norm_num

/-- Any returned traffic damping factor lies in `[1, 2]`. -/
lemma zoningDamping_range {p : Processor} {lat lon : ℝ} {hour : ℕ} {td : ℝ}
    (h : zoningDamping p lat lon hour = some td) : 1 ≤ td ∧ td ≤ 2 := by
  unfold zoningDamping at h
  split at h
  · cases h
    norm_num
  · obtain ⟨t, ht, rfl⟩ := Option.map_eq_some'.mp h
    have hr := gtm_range ht
    constructor <;> nlinarith [hr.1, hr.2]

/-- Claim C7: every returned zoning penalty lies in `[1.0, 3.0]` after the
3.0 cap, and — for the same edge, the same processor state (hence the same
road-class factor, commercial factor, and traffic damping) — the penalty is
monotonically non-decreasing as the distance to the downtown center
decreases. -/
theorem c7_zoning_penalty_range_monotone :
    ∀ (e : ZEdgeData) (p : Processor) (lat1 lon1 lat2 lon2 : ℝ) (hour : ℕ)
      (q1 q2 : ℝ),
      calculate_zoning_penalty e p lat1 lon1 hour = some q1 →
      calculate_zoning_penalty e p lat2 lon2 hour = some q2 →
      (1 ≤ q1 ∧ q1 ≤ 3) ∧
      (zoningDamping p lat1 lon1 hour = zoningDamping p lat2 lon2 hour →
        downtownDistance lat1 lon1 ≤ downtownDistance lat2 lon2 → q2 ≤ q1) := by
  intro e p lat1 lon1 lat2 lon2 hour q1 q2 h1 h2
  unfold calculate_zoning_penalty at h1 h2
  obtain ⟨td1, hd1, rfl⟩ := Option.map_eq_some'.mp h1
  obtain ⟨td2, hd2, rfl⟩ := Option.map_eq_some'.mp h2
  have hhf := highwayFactor_ge_one (e.highway.getD "residential")
  have hcf := commercialFactor_ge_one e
  have htd1 := zoningDamping_range hd1
  have htd2 := zoningDamping_range hd2
  have ht1 := tierFactor_ge_one (downtownDistance lat1 lon1)
  have ht2 := tierFactor_ge_one (downtownDistance lat2 lon2)
  constructor
  · constructor
    · refine le_min ?_ (by norm_num)
      have ha : (1 : ℝ) ≤ highwayFactor (e.highway.getD "residential") *
          tierFactor (downtownDistance lat1 lon1) := by nlinarith [hhf, ht1]
      have hb : (1 : ℝ) ≤ commercialFactor e * td1 := by nlinarith [hcf, htd1.1]
      nlinarith [ha, hb]
    · exact le_trans (min_le_right _ _) (by norm_num)
  · intro hdeq hdist
    have htdeq : td1 = td2 := by
      rw [hd1, hd2] at hdeq
      exact (Option.some.inj hdeq)
    subst htdeq
    have htier := tierFactor_antitone hdist
    refine min_le_min ?_ (le_refl _)
    have hK0 : (1 : ℝ) ≤ highwayFactor (e.highway.getD "residential") *
        commercialFactor e := by nlinarith [hhf, hcf]
    have hK : (0 : ℝ) ≤ highwayFactor (e.highway.getD "residential") *
        commercialFactor e * td1 := by nlinarith [hK0, htd1.1]
    have hmul := mul_le_mul_of_nonneg_right htier hK
    nlinarith [hmul]

/-- The downtown distance of the downtown reference point itself is 0. -/
lemma c7w_downtown_zero : downtownDistance 45.5017 (-73.5673) = 0 := by
  unfold downtownDistance calculate_distance_km
  rw [show ((45.5017 : ℝ) - 45.5017) = 0 by norm_num,
      show ((-73.5673 : ℝ) - (-73.5673)) = 0 by norm_num,
      zero_mul, zero_mul]
  rw [show (0 : ℝ) ^ 2 + 0 ^ 2 = 0 by norm_num, Real.sqrt_zero]

/-- Motorway edge with no commercial attributes for the C7 witness. -/
def c7wE : ZEdgeData := ⟨some "motorway", none, none, none, none⟩

lemma c7w_value :
    calculate_zoning_penalty c7wE ⟨[]⟩ 45.5017 (-73.5673) 12 = some 1.8 := by
  unfold calculate_zoning_penalty
  have hdamp : zoningDamping ⟨[]⟩ 45.5017 (-73.5673) 12 = some 1.0 := rfl
  rw [hdamp, Option.map_some', c7w_downtown_zero]
  have hhf : highwayFactor (c7wE.highway.getD "residential") = 1.0 := rfl
  have hcf : commercialFactor c7wE = 1.0 := rfl
  have htf : tierFactor 0 = 1.8 := by
    unfold tierFactor
    rw [if_pos (by norm_num)]
  rw [hhf, hcf, htf]
  rw [show (1.0 : ℝ) * 1.0 * 1.8 * 1.0 * 1.0 = 1.8 by norm_num]
  rw [min_eq_left (by norm_num)]

/-- Witness for C7: at the downtown reference point, a motorway edge with
empty profiles gets penalty exactly 1.8, which the theorem places in
`[1, 3]` and which is trivially monotone against itself. -/
theorem c7_zoning_penalty_range_monotone_witness :
    calculate_zoning_penalty c7wE ⟨[]⟩ 45.5017 (-73.5673) 12 = some 1.8 ∧
    ((1 : ℝ) ≤ 1.8 ∧ (1.8 : ℝ) ≤ 3) ∧ (1.8 : ℝ) ≤ 1.8 := by
  have h := c7_zoning_penalty_range_monotone c7wE ⟨[]⟩ 45.5017 (-73.5673)
    45.5017 (-73.5673) 12 1.8 1.8 c7w_value c7w_value
  exact ⟨c7w_value, h.1, h.2 rfl (le_refl _)⟩

/-- The Haversine distance of a point to itself is 0. -/
lemma cd_self (c : Coord) : calculate_distance c c = 0 := by
  unfold calculate_distance hav_a
  simp [sub_self]

/-- Merged node list for C3: one car node and one transit stop at identical
coordinates (within any positive transfer range). -/
def c3wNodes : List MNode :=
  [⟨"c", some 0, some 0, some "car", none⟩,
   ⟨"t", some 0, some 0, some "transit", none⟩]

/-- Claim C3 (code bug): merging the subset {car, transit} — whose combo
labels in `graph_merger.main` are `["car", "gtfs"]` — produces no transfer
edge even though a car node and a transit stop coincide (Haversine distance
0 ≤ 0.5) and (car, transit) is in the allow-list: the allow-list uses the
node-attribute label `transit` while the combination uses the graph-file
label `gtfs`, so the `mode2 in modes` test can never succeed for transit. -/
theorem c3_transit_label_mismatch :
    add_transfer_edges c3wNodes ["car", "gtfs"] = [] ∧
    ("car", "transit") ∈ valid_transfers ∧
    calculate_distance ⟨0, 0⟩ ⟨0, 0⟩ ≤ 0.5 := by
  refine ⟨rfl, by decide, ?_⟩
  rw [cd_self]
  norm_num

/-- Insertion sort fixes an already ascending four-element list. -/
lemma insertionSort_of_chain {α : Type} (r : α → α → Prop) [DecidableRel r]
    (a b c d : α) (hab : r a b) (hbc : r b c) (hcd : r c d) :
    List.insertionSort r [a, b, c, d] = [a, b, c, d] := by
  simp only [List.insertionSort, List.orderedInsert_nil]
  rw [List.orderedInsert_of_le r _ hcd, List.orderedInsert_of_le r _ hbc,
      List.orderedInsert_of_le r _ hab]

/-- Node list for the C2 counterexample: a car node at `(0,0)` and four bike
nodes whose raw-coordinate distances are ascending, where only the fourth
nearest is within Haversine range. -/
def c2xNodes : List MNode :=
  [⟨"a", some 0, some 0, some "car", none⟩,
   ⟨"b1", some 0, some 180, some "bike", none⟩,
   ⟨"b2", some 0, some 540, some "bike", none⟩,
   ⟨"b3", some 0, some 900, some "bike", none⟩,
   ⟨"b4", some 0, some 1080, some "bike", none⟩]

/-- The only transfer edge produced on `c2xNodes`: from the bike→car pass. -/
noncomputable def c2xEdge : TEdge :=
  ⟨"b4", "a", "transfer", calculate_distance ⟨0, 1080⟩ ⟨0, 0⟩ / 5.0 * 3600,
   calculate_distance ⟨0, 1080⟩ ⟨0, 0⟩, "bike", "car"⟩

lemma c2x_car_bike :
    pairTransfers c2xNodes ["car", "bike"] ("car", "bike") = [] := by
  unfold pairTransfers
  rw [if_neg (by decide), if_neg (by decide), if_neg (by decide)]
  have h1 : nodesByMode "car" c2xNodes =
      [⟨"a", some 0, some 0, some "car", none⟩] := rfl
  rw [h1]
  have hsort : List.insertionSort
      (fun a b : String × Coord => sqDist ⟨0, 0⟩ a.2 ≤ sqDist ⟨0, 0⟩ b.2)
      [("b1", ⟨0, 180⟩), ("b2", ⟨0, 540⟩), ("b3", ⟨0, 900⟩), ("b4", ⟨0, 1080⟩)] =
      [("b1", ⟨0, 180⟩), ("b2", ⟨0, 540⟩), ("b3", ⟨0, 900⟩), ("b4", ⟨0, 1080⟩)] := by
    apply insertionSort_of_chain <;> norm_num [sqDist]
  have hknn : kNearest (min 3 4) ⟨0, 0⟩
      [("b1", ⟨0, 180⟩), ("b2", ⟨0, 540⟩), ("b3", ⟨0, 900⟩), ("b4", ⟨0, 1080⟩)] =
      [("b1", ⟨0, 180⟩), ("b2", ⟨0, 540⟩), ("b3", ⟨0, 900⟩)] := by
    unfold kNearest
    rw [hsort]
    rfl
  have hscan : scanCandidates "a" ⟨0, 0⟩ "car" "bike"
      [("b1", ⟨0, 180⟩), ("b2", ⟨0, 540⟩), ("b3", ⟨0, 900⟩)] = none := by
    rw [scanCandidates, if_neg (by rw [cd_x0_x180]; exact cd_pi_not_small),
        scanCandidates, if_neg (by rw [cd_x0_x540]; exact cd_pi_not_small),
        scanCandidates, if_neg (by rw [cd_x0_x900]; exact cd_pi_not_small)]
    rfl
  have hf : (nodeCoord ⟨"a", some 0, some 0, some "car", none⟩).bind
      (fun c1 => scanCandidates "a" c1 "car" "bike"
        (kNearest (min 3 (candidateList "bike" c2xNodes).length) c1
          (candidateList "bike" c2xNodes))) = none := by
    have hred : (nodeCoord ⟨"a", some 0, some 0, some "car", none⟩).bind
        (fun c1 => scanCandidates "a" c1 "car" "bike"
          (kNearest (min 3 (candidateList "bike" c2xNodes).length) c1
            (candidateList "bike" c2xNodes))) =
        scanCandidates "a" ⟨0, 0⟩ "car" "bike" (kNearest (min 3 4) ⟨0, 0⟩
          [("b1", ⟨0, 180⟩), ("b2", ⟨0, 540⟩), ("b3", ⟨0, 900⟩),
           ("b4", ⟨0, 1080⟩)]) := rfl
    rw [hred, hknn, hscan]
  simp only [List.filterMap_cons, hf, List.filterMap_nil]

lemma c2x_bike_car :
    pairTransfers c2xNodes ["car", "bike"] ("bike", "car") = [c2xEdge] := by
  unfold pairTransfers
  rw [if_neg (by decide), if_neg (by decide), if_neg (by decide)]
  have h1 : nodesByMode "bike" c2xNodes =
      [⟨"b1", some 0, some 180, some "bike", none⟩,
       ⟨"b2", some 0, some 540, some "bike", none⟩,
       ⟨"b3", some 0, some 900, some "bike", none⟩,
       ⟨"b4", some 0, some 1080, some "bike", none⟩] := rfl
  rw [h1]
  have hf1 : (nodeCoord ⟨"b1", some 0, some 180, some "bike", none⟩).bind
      (fun c1 => scanCandidates "b1" c1 "bike" "car"
        (kNearest (min 3 (candidateList "car" c2xNodes).length) c1
          (candidateList "car" c2xNodes))) = none := by
    have hred : (nodeCoord ⟨"b1", some 0, some 180, some "bike", none⟩).bind
        (fun c1 => scanCandidates "b1" c1 "bike" "car"
          (kNearest (min 3 (candidateList "car" c2xNodes).length) c1
            (candidateList "car" c2xNodes))) =
        scanCandidates "b1" ⟨0, 180⟩ "bike" "car" [("a", ⟨0, 0⟩)] := rfl
    rw [hred, scanCandidates, if_neg (by rw [cd_x180_x0]; exact cd_pi_not_small)]
    rfl
  have hf2 : (nodeCoord ⟨"b2", some 0, some 540, some "bike", none⟩).bind
      (fun c1 => scanCandidates "b2" c1 "bike" "car"
        (kNearest (min 3 (candidateList "car" c2xNodes).length) c1
          (candidateList "car" c2xNodes))) = none := by
    have hred : (nodeCoord ⟨"b2", some 0, some 540, some "bike", none⟩).bind
        (fun c1 => scanCandidates "b2" c1 "bike" "car"
          (kNearest (min 3 (candidateList "car" c2xNodes).length) c1
            (candidateList "car" c2xNodes))) =
        scanCandidates "b2" ⟨0, 540⟩ "bike" "car" [("a", ⟨0, 0⟩)] := rfl
    rw [hred, scanCandidates, if_neg (by rw [cd_x540_x0]; exact cd_pi_not_small)]
    rfl
  have hf3 : (nodeCoord ⟨"b3", some 0, some 900, some "bike", none⟩).bind
      (fun c1 => scanCandidates "b3" c1 "bike" "car"
        (kNearest (min 3 (candidateList "car" c2xNodes).length) c1
          (candidateList "car" c2xNodes))) = none := by
    have hred : (nodeCoord ⟨"b3", some 0, some 900, some "bike", none⟩).bind
        (fun c1 => scanCandidates "b3" c1 "bike" "car"
          (kNearest (min 3 (candidateList "car" c2xNodes).length) c1
            (candidateList "car" c2xNodes))) =
        scanCandidates "b3" ⟨0, 900⟩ "bike" "car" [("a", ⟨0, 0⟩)] := rfl
    rw [hred, scanCandidates, if_neg (by rw [cd_x900_x0]; exact cd_pi_not_small)]
    rfl
  have hf4 : (nodeCoord ⟨"b4", some 0, some 1080, some "bike", none⟩).bind
      (fun c1 => scanCandidates "b4" c1 "bike" "car"
        (kNearest (min 3 (candidateList "car" c2xNodes).length) c1
          (candidateList "car" c2xNodes))) = some c2xEdge := by
    have hred : (nodeCoord ⟨"b4", some 0, some 1080, some "bike", none⟩).bind
        (fun c1 => scanCandidates "b4" c1 "bike" "car"
          (kNearest (min 3 (candidateList "car" c2xNodes).length) c1
            (candidateList "car" c2xNodes))) =
        scanCandidates "b4" ⟨0, 1080⟩ "bike" "car" [("a", ⟨0, 0⟩)] := rfl
    rw [hred, scanCandidates, if_pos (by rw [cd_x1080_x0]; norm_num)]
    rfl
  simp only [List.filterMap_cons, hf1, hf2, hf3, hf4, List.filterMap_nil]

/-- Claim C2 (counterexample): on `c2xNodes` with modes `["car","bike"]` the
merger produces only the single directed edge `b4 → a`, although `b4` is
within the 0.5 km Haversine range of `a` and among its five (here: four)
nearest candidates — the merger scans only `min(3, n)` candidates, so no
`a → b4` edge is created, and an accepted pair yields one directed edge,
not both; moreover the bixi injection tags its edges `bixi_transfer`, not
`transfer`, and adds no transfer_from/transfer_to labels. -/
theorem c2_first_valid_counterexample :
    add_transfer_edges c2xNodes ["car", "bike"] = [c2xEdge] ∧
    c2xEdge.src = "b4" ∧ c2xEdge.tgt = "a" ∧
    calculate_distance ⟨0, 0⟩ ⟨0, 1080⟩ ≤ 0.5 ∧
    inject_bixi_transfers [("bk", ⟨0, 0⟩)] [⟨"st", 0, 360⟩] 0.5 =
      [⟨"st", "bk", "bixi_transfer",
        calculate_distance ⟨0, 360⟩ ⟨0, 0⟩ / 5.0 * 3600,
        calculate_distance ⟨0, 360⟩ ⟨0, 0⟩⟩,
       ⟨"bk", "st", "bixi_transfer",
        calculate_distance ⟨0, 360⟩ ⟨0, 0⟩ / 5.0 * 3600,
        calculate_distance ⟨0, 360⟩ ⟨0, 0⟩⟩] ∧
    "bixi_transfer" ≠ "transfer" := by
  refine ⟨?_, rfl, rfl, ?_, ?_, by decide⟩
  · unfold add_transfer_edges
    rw [if_neg (by norm_num)]
    have hct : pairTransfers c2xNodes ["car", "bike"] ("car", "transit") = [] := rfl
    have hcx : pairTransfers c2xNodes ["car", "bike"] ("car", "bixi") = [] := rfl
    have hbt : pairTransfers c2xNodes ["car", "bike"] ("bike", "transit") = [] := rfl
    have hxt : pairTransfers c2xNodes ["car", "bike"] ("bixi", "transit") = [] := rfl
    have htc : pairTransfers c2xNodes ["car", "bike"] ("transit", "car") = [] := rfl
    have htb : pairTransfers c2xNodes ["car", "bike"] ("transit", "bike") = [] := rfl
    have htx : pairTransfers c2xNodes ["car", "bike"] ("transit", "bixi") = [] := rfl
    have hxc : pairTransfers c2xNodes ["car", "bike"] ("bixi", "car") = [] := rfl
    simp only [valid_transfers, List.flatMap_cons, List.flatMap_nil,
      hct, hcx, hbt, hxt, htc, htb, htx, hxc, c2x_car_bike, c2x_bike_car,
      List.nil_append, List.append_nil]
  · rw [cd_x0_x1080]
    norm_num
  · unfold inject_bixi_transfers
    simp only [List.flatMap_cons, List.flatMap_nil]
    have hk : kNearest 5 ⟨0, 360⟩ [("bk", ⟨0, 0⟩)] = [("bk", ⟨0, 0⟩)] := rfl
    rw [hk, bixiScan, if_pos (by rw [cd_x360_x0]; norm_num)]
    simp

/-- First-valid characterization of the merger's candidate scan: it returns
an edge exactly when the candidate list splits as `l1 ++ b :: l2` with every
candidate of `l1` out of range and `b` in range, and the edge is built from
`b`. -/
lemma scanCandidates_iff (n1 : String) (c1 : Coord) (m1 m2 : String) :
    ∀ (cands : List (String × Coord)) (e : TEdge),
      scanCandidates n1 c1 m1 m2 cands = some e ↔
      ∃ l1 b l2, cands = l1 ++ b :: l2 ∧
        (∀ x ∈ l1, ¬ calculate_distance c1 x.2 ≤ 0.5) ∧
        calculate_distance c1 b.2 ≤ 0.5 ∧
        e = ⟨n1, b.1, "transfer", calculate_distance c1 b.2 / 5.0 * 3600,
             calculate_distance c1 b.2, m1, m2⟩ := by
  intro cands
  induction cands with
  | nil =>
    intro e
    constructor
    · intro h
      simp [scanCandidates] at h
    · rintro ⟨l1, b, l2, hsplit, -, -, -⟩
      exact absurd hsplit (by simp)
  | cons hd tl ih =>
    intro e
    obtain ⟨n2, c2⟩ := hd
    rw [scanCandidates]
    by_cases hc : calculate_distance c1 c2 ≤ 0.5
    · rw [if_pos hc]
      constructor
      · intro h
        exact ⟨[], (n2, c2), tl, rfl, by simp, hc, (Option.some.inj h).symm⟩
      · rintro ⟨l1, b, l2, hsplit, hl1, hb, rfl⟩
        cases l1 with
        | nil =>
          rw [List.nil_append] at hsplit
          obtain ⟨hb1, -⟩ := (List.cons.injEq _ _ _ _).mp hsplit
          rw [← hb1]
        | cons hd' tl' =>
          exfalso
          rw [List.cons_append] at hsplit
          obtain ⟨hhd, -⟩ := (List.cons.injEq _ _ _ _).mp hsplit
          refine hl1 hd' (List.mem_cons_self _ _) ?_
          rw [← hhd]
          exact hc
    · rw [if_neg hc, ih e]
      constructor
      · rintro ⟨l1, b, l2, hsplit, hl1, hb, he⟩
        refine ⟨(n2, c2) :: l1, b, l2, by rw [List.cons_append, hsplit], ?_, hb, he⟩
        intro x hx
        rcases List.mem_cons.mp hx with rfl | hx
        · exact hc
        · exact hl1 x hx
      · rintro ⟨l1, b, l2, hsplit, hl1, hb, he⟩
        cases l1 with
        | nil =>
          exfalso
          rw [List.nil_append] at hsplit
          obtain ⟨hb1, -⟩ := (List.cons.injEq _ _ _ _).mp hsplit
          rw [← hb1] at hb
          exact hc hb
        | cons hd' tl' =>
          rw [List.cons_append] at hsplit
          obtain ⟨-, htl⟩ := (List.cons.injEq _ _ _ _).mp hsplit
          exact ⟨tl', b, l2, htl,
            fun x hx => hl1 x (List.mem_cons_of_mem _ hx), hb, he⟩

/-- First-valid characterization of the bixi injection's candidate scan:
either no candidate is in range and nothing is added, or the list splits at
the first in-range candidate `b` and exactly the two directed
`bixi_transfer` edges for `b` are added. -/
lemma bixiScan_iff (bid : String) (bc : Coord) (maxDist : ℝ) :
    ∀ cands : List (String × Coord),
      (bixiScan bid bc maxDist cands = [] ∧
        ∀ x ∈ cands, ¬ calculate_distance bc x.2 ≤ maxDist) ∨
      (∃ l1 b l2, cands = l1 ++ b :: l2 ∧
        (∀ x ∈ l1, ¬ calculate_distance bc x.2 ≤ maxDist) ∧
        calculate_distance bc b.2 ≤ maxDist ∧
        bixiScan bid bc maxDist cands =
          [⟨bid, b.1, "bixi_transfer", calculate_distance bc b.2 / 5.0 * 3600,
            calculate_distance bc b.2⟩,
           ⟨b.1, bid, "bixi_transfer", calculate_distance bc b.2 / 5.0 * 3600,
            calculate_distance bc b.2⟩]) := by
  intro cands
  induction cands with
  | nil =>
    left
    exact ⟨rfl, by simp⟩
  | cons hd tl ih =>
    obtain ⟨n2, c2⟩ := hd
    by_cases hc : calculate_distance bc c2 ≤ maxDist
    · right
      refine ⟨[], (n2, c2), tl, rfl, by simp, hc, ?_⟩
      rw [bixiScan, if_pos hc]
    · rcases ih with ⟨hnil, hall⟩ | ⟨l1, b, l2, hsplit, hl1, hb, heq⟩
      · left
        constructor
        · rw [bixiScan, if_neg hc]
          exact hnil
        · intro x hx
          rcases List.mem_cons.mp hx with rfl | hx
          · exact hc
          · exact hall x hx
      · right
        refine ⟨(n2, c2) :: l1, b, l2, by rw [List.cons_append, hsplit], ?_, hb, ?_⟩
        · intro x hx
          rcases List.mem_cons.mp hx with rfl | hx
          · exact hc
          · exact hl1 x hx
        · rw [bixiScan, if_neg hc]
          exact heq

/-- Claim C2 (amended): the KD-tree query returns the candidates in
ascending approximate (raw-coordinate) order, a permutation prefix of
length `min k n`; the merger scans the `min(3, n)` nearest candidates of
each source node and accepts the first within 0.5 km Haversine (first-valid
policy), producing at most one directed edge per source node per ordered
mode pair, tagged `travel_mode = transfer` with `transfer_from`/
`transfer_to`; the bixi injection scans the 5 nearest bike nodes per
station and on the first in-range candidate adds exactly the two directed
edges tagged `bixi_transfer` (no transfer_from/transfer_to fields). -/
theorem c2_amended_first_valid :
    (∀ (k : ℕ) (q : Coord) (l : List (String × Coord)),
       (kNearest k q l).length = min k l.length ∧
       List.Sorted (fun a b => sqDist q a.2 ≤ sqDist q b.2) (kNearest k q l) ∧
       (List.insertionSort (fun a b => sqDist q a.2 ≤ sqDist q b.2) l).Perm l ∧
       kNearest k q l =
         (List.insertionSort (fun a b => sqDist q a.2 ≤ sqDist q b.2) l).take k) ∧
    (∀ (ns : List MNode) (modes : List String) (p : String × String) (e : TEdge),
       e ∈ pairTransfers ns modes p →
       (∃ n1, n1 ∈ ns ∧ ∃ c1, nodeCoord n1 = some c1 ∧
          scanCandidates n1.id c1 p.1 p.2
            (kNearest (min 3 (candidateList p.2 ns).length) c1
              (candidateList p.2 ns)) = some e) ∧
       e.travel_mode = "transfer" ∧ e.transfer_from = p.1 ∧ e.transfer_to = p.2) ∧
    (∀ (ns : List MNode) (modes : List String) (p : String × String),
       (pairTransfers ns modes p).length ≤ (nodesByMode p.1 ns).length) ∧
    (∀ (n1 : String) (c1 : Coord) (m1 m2 : String)
       (cands : List (String × Coord)) (e : TEdge),
       scanCandidates n1 c1 m1 m2 cands = some e ↔
       ∃ l1 b l2, cands = l1 ++ b :: l2 ∧
         (∀ x ∈ l1, ¬ calculate_distance c1 x.2 ≤ 0.5) ∧
         calculate_distance c1 b.2 ≤ 0.5 ∧
         e = ⟨n1, b.1, "transfer", calculate_distance c1 b.2 / 5.0 * 3600,
              calculate_distance c1 b.2, m1, m2⟩) ∧
    (∀ (bikeNodes : List (String × Coord)) (stations : List BixiStation)
       (maxDist : ℝ) (e : BixiEdge),
       e ∈ inject_bixi_transfers bikeNodes stations maxDist →
       ∃ st, st ∈ stations ∧
         e ∈ bixiScan st.id ⟨st.x, st.y⟩ maxDist
               (kNearest 5 ⟨st.x, st.y⟩ bikeNodes)) ∧
    (∀ (bid : String) (bc : Coord) (maxDist : ℝ)
       (cands : List (String × Coord)),
       (bixiScan bid bc maxDist cands = [] ∧
         ∀ x ∈ cands, ¬ calculate_distance bc x.2 ≤ maxDist) ∨
       (∃ l1 b l2, cands = l1 ++ b :: l2 ∧
         (∀ x ∈ l1, ¬ calculate_distance bc x.2 ≤ maxDist) ∧
         calculate_distance bc b.2 ≤ maxDist ∧
         bixiScan bid bc maxDist cands =
           [⟨bid, b.1, "bixi_transfer",
             calculate_distance bc b.2 / 5.0 * 3600, calculate_distance bc b.2⟩,
            ⟨b.1, bid, "bixi_transfer",
             calculate_distance bc b.2 / 5.0 * 3600,
             calculate_distance bc b.2⟩])) := by
  refine ⟨?_, ?_, ?_, scanCandidates_iff, ?_, bixiScan_iff⟩
  · intro k q l
    haveI : IsTotal (String × Coord) (fun a b => sqDist q a.2 ≤ sqDist q b.2) :=
      ⟨fun a b => le_total _ _⟩
    haveI : IsTrans (String × Coord) (fun a b => sqDist q a.2 ≤ sqDist q b.2) :=
      ⟨fun a b c hab hbc => le_trans hab hbc⟩
    refine ⟨?_, ?_, List.perm_insertionSort _ _, rfl⟩
    · unfold kNearest
      rw [List.length_take, List.length_insertionSort]
    · unfold kNearest
      exact (List.sorted_insertionSort _ _).sublist (List.take_sublist _ _)
  · intro ns modes p e h
    obtain ⟨n1, hn1, c1, hc1, hscan⟩ := pairTransfers_sound h
    obtain ⟨hsrc, hmode, hfrom, hto, -⟩ := scanCandidates_sound _ _ _ _ _ _ hscan
    exact ⟨⟨n1, hn1, c1, hc1, hscan⟩, hmode, hfrom, hto⟩
  · intro ns modes p
    unfold pairTransfers
    split
    · simp
    split
    · simp
    split
    · simp
    · exact List.length_filterMap_le _ _
  · intro bikeNodes stations maxDist e h
    exact List.mem_flatMap.mp h

/-- The concrete scan result used by the C2 witness. -/
noncomputable def c2wEdge : TEdge :=
  ⟨"a", "b", "transfer", calculate_distance ⟨0, 0⟩ ⟨0, 360⟩ / 5.0 * 3600,
   calculate_distance ⟨0, 0⟩ ⟨0, 360⟩, "car", "bike"⟩

lemma c2w_scan : scanCandidates "a" ⟨0, 0⟩ "car" "bike" [("b", ⟨0, 360⟩)] =
    some c2wEdge := by
  rw [scanCandidates, if_pos (by rw [cd_x0_x360]; norm_num)]
  rfl

/-- Witness for the amended C2: the first-valid characterization applied to
a concrete one-candidate scan. -/
theorem c2_amended_first_valid_witness :
    scanCandidates "a" ⟨0, 0⟩ "car" "bike" [("b", ⟨0, 360⟩)] = some c2wEdge ∧
    (∃ l1 b l2, ([("b", (⟨0, 360⟩ : Coord))] = l1 ++ b :: l2) ∧
      (∀ x ∈ l1, ¬ calculate_distance ⟨0, 0⟩ x.2 ≤ 0.5) ∧
      calculate_distance ⟨0, 0⟩ b.2 ≤ 0.5 ∧
      c2wEdge = ⟨"a", b.1, "transfer",
        calculate_distance ⟨0, 0⟩ b.2 / 5.0 * 3600,
        calculate_distance ⟨0, 0⟩ b.2, "car", "bike"⟩) :=
  ⟨c2w_scan,
   (c2_amended_first_valid.2.2.2.1 "a" ⟨0, 0⟩ "car" "bike"
     [("b", ⟨0, 360⟩)] c2wEdge).mp c2w_scan⟩

/-- Concatenation of a list of lists (order-preserving union). -/
def concatAll {α : Type} (ls : List (List α)) : List α :=
  ls.foldr (fun a b => a ++ b) []

/-- Node identifiers of two graphs are disjoint. -/
def idsDisjoint (g h : MGraph) : Prop :=
  ∀ n ∈ g.nodes, ∀ m ∈ h.nodes, n.id ≠ m.id

/-- Node modes of two graphs are disjoint. -/
def modesDisjoint (g h : MGraph) : Prop :=
  ∀ n ∈ g.nodes, ∀ m ∈ h.nodes, nodeMode n ≠ nodeMode m

/-- Every edge source of a graph names one of its own nodes. -/
def edgesOwned (g : MGraph) : Prop :=
  ∀ e ∈ g.edges, e.src ∈ g.nodes.map MNode.id

/-- With disjoint identifiers, composition is plain concatenation on
nodes. -/
lemma composeG_nodes_of_disjoint {g h : MGraph} (hd : idsDisjoint g h) :
    (composeG g h).nodes = g.nodes ++ h.nodes := by
  unfold composeG
  simp only
  have h1 : ∀ n ∈ g.nodes,
      (match h.nodes.find? (fun m => m.id = n.id) with
       | some m => updNode n m
       | none => n) = id n := by
    intro n hn
    rw [List.find?_eq_none.mpr (fun m hm => by
      simp only [decide_eq_true_eq]
      exact (hd n hn m hm).symm)]
    rfl
  have h2 : ∀ m ∈ h.nodes,
      ((g.nodes.find? (fun n => n.id = m.id)).isNone = true) := by
    intro m hm
    rw [List.find?_eq_none.mpr (fun n hn => by
      simp only [decide_eq_true_eq]
      exact hd n hn m hm)]
    rfl
  rw [List.map_congr_left h1, List.map_id, List.filter_eq_self.mpr h2]

/-- With disjoint identifiers and owned edges, composition is plain
concatenation on keyed edges. -/
lemma composeG_edges_of_disjoint {g h : MGraph} (hd : idsDisjoint g h)
    (hg : edgesOwned g) (hh : edgesOwned h) :
    (composeG g h).edges = g.edges ++ h.edges := by
  unfold composeG
  simp only
  have hsrc : ∀ e ∈ g.edges, ∀ f ∈ h.edges, ¬ f.src = e.src := by
    intro e he f hf heq
    obtain ⟨n, hn, hnid⟩ := List.mem_map.mp (hg e he)
    obtain ⟨m, hm, hmid⟩ := List.mem_map.mp (hh f hf)
    exact hd n hn m hm (by rw [hnid, hmid]; exact heq.symm)
  have h1 : ∀ e ∈ g.edges,
      (match h.edges.find? (fun f => f.src = e.src ∧ f.tgt = e.tgt ∧ f.key = e.key) with
       | some f => updEdge e f
       | none => e) = id e := by
    intro e he
    rw [List.find?_eq_none.mpr (fun f hf => by
      simp only [decide_eq_true_eq]
      rintro ⟨hfe, -⟩
      exact hsrc e he f hf hfe)]
    rfl
  have h2 : ∀ f ∈ h.edges,
      ((g.edges.find? (fun e => e.src = f.src ∧ e.tgt = f.tgt ∧ e.key = f.key)).isNone
        = true) := by
    intro f hf
    rw [List.find?_eq_none.mpr (fun e he => by
      simp only [decide_eq_true_eq]
      rintro ⟨hef, -⟩
      exact hsrc e he f hf hef.symm)]
    rfl
  rw [List.map_congr_left h1, List.map_id, List.filter_eq_self.mpr h2]

/-- Folding `compose` over pairwise node-disjoint graphs with owned edges
concatenates all node lists and all edge lists. -/
lemma compose_all_flat :
    ∀ (gs : List MGraph) (acc : MGraph),
      (∀ g ∈ gs, idsDisjoint acc g) →
      List.Pairwise idsDisjoint gs →
      edgesOwned acc → (∀ g ∈ gs, edgesOwned g) →
      (gs.foldl composeG acc).nodes = acc.nodes ++ concatAll (gs.map MGraph.nodes) ∧
      (gs.foldl composeG acc).edges = acc.edges ++ concatAll (gs.map MGraph.edges) := by
  intro gs
  induction gs with
  | nil =>
    intro acc _ _ _ _
    simp [concatAll]
  | cons g rest ih =>
    intro acc hacc hpair hao hgo
    have hdg : idsDisjoint acc g := hacc g (List.mem_cons_self _ _)
    have hng : (composeG acc g).nodes = acc.nodes ++ g.nodes :=
      composeG_nodes_of_disjoint hdg
    have heg : (composeG acc g).edges = acc.edges ++ g.edges :=
      composeG_edges_of_disjoint hdg hao (hgo g (List.mem_cons_self _ _))
    have hao' : edgesOwned (composeG acc g) := by
      intro e he
      rw [heg] at he
      rw [hng, List.map_append]
      rcases List.mem_append.mp he with he | he
      · exact List.mem_append_left _ (hao e he)
      · exact List.mem_append_right _ (hgo g (List.mem_cons_self _ _) e he)
    have hacc' : ∀ g' ∈ rest, idsDisjoint (composeG acc g) g' := by
      intro g' hg' n hn m hm
      rw [hng] at hn
      rcases List.mem_append.mp hn with hn | hn
      · exact hacc g' (List.mem_cons_of_mem _ hg') n hn m hm
      · exact (List.pairwise_cons.mp hpair).1 g' hg' n hn m hm
    obtain ⟨hrn, hre⟩ := ih (composeG acc g) hacc' (List.pairwise_cons.mp hpair).2
      hao' (fun g' hg' => hgo g' (List.mem_cons_of_mem _ hg'))
    constructor
    · rw [List.foldl_cons, hrn, hng, List.append_assoc]
      rfl
    · rw [List.foldl_cons, hre, heg, List.append_assoc]
      rfl

/-- Concatenation of permuted list families is a permutation. -/
lemma concatAll_perm {α : Type} {ls ls' : List (List α)} (h : ls.Perm ls') :
    (concatAll ls).Perm (concatAll ls') := by
  induction h with
  | nil => exact List.Perm.refl _
  | cons x h ih => exact ih.append_left x
  | swap x y l => exact List.perm_append_comm_assoc y x (concatAll l)
  | trans h1 h2 ih1 ih2 => exact ih1.trans ih2

/-- When at most one member of a family is nonempty (pairwise), permuting
the family does not change the concatenation at all. -/
lemma concatAll_eq_of_perm {α : Type} {ls ls' : List (List α)} (h : ls.Perm ls')
    (hp : ls.Pairwise (fun a b => a = [] ∨ b = [])) :
    concatAll ls = concatAll ls' := by
  induction h with
  | nil => rfl
  | cons x h ih =>
    exact congrArg (fun t => x ++ t) (ih (List.pairwise_cons.mp hp).2)
  | swap x y l =>
    obtain ⟨hyx, -⟩ := List.pairwise_cons.mp hp
    have hcase := hyx x (List.mem_cons_self _ _)
    show y ++ (x ++ concatAll l) = x ++ (y ++ concatAll l)
    rcases hcase with rfl | rfl <;> simp
  | trans h1 h2 ih1 ih2 =>
    have hsym : Symmetric (fun a b : List α => a = [] ∨ b = []) := by
      intro a b hab
      exact hab.symm
    exact (ih1 hp).trans (ih2 ((h1.pairwise_iff @hsym).mp hp))

/-- Filtering commutes with family concatenation. -/
lemma filter_concatAll {α : Type} (p : α → Bool) :
    ∀ ls : List (List α),
      (concatAll ls).filter p = concatAll (ls.map (List.filter p))
  | [] => rfl
  | l :: ls => by
    show (l ++ concatAll ls).filter p = l.filter p ++ concatAll (ls.map (List.filter p))
    rw [List.filter_append, filter_concatAll p ls]

/-- The transfer synthesizer only reads the per-mode node lists. -/
lemma add_transfer_edges_congr {ns ns' : List MNode} (modes : List String)
    (h : ∀ m, nodesByMode m ns = nodesByMode m ns') :
    add_transfer_edges ns modes = add_transfer_edges ns' modes := by
  have hp : pairTransfers ns modes = pairTransfers ns' modes := by
    funext p
    unfold pairTransfers candidateList
    rw [h p.1, h p.2]
  unfold add_transfer_edges
  rw [hp]

/-- Claim C6: when node identifiers are disjoint across the constituent
graphs (mode-prefixed, as the claim asserts), each mode's nodes come from a
single constituent, and edges name their own graph's nodes, merging is
commutative in the input order: the composed node multiset and keyed-edge
multiset are equal for every input ordering, and the synthesized
transfer-edge list is literally identical. -/
theorem c6_merge_commutative :
    ∀ (gs gs' : List MGraph) (modes : List String),
      gs.Perm gs' →
      List.Pairwise idsDisjoint gs →
      List.Pairwise modesDisjoint gs →
      (∀ g ∈ gs, edgesOwned g) →
      ((compose_all gs).nodes : Multiset MNode) =
        ((compose_all gs').nodes : Multiset MNode) ∧
      ((compose_all gs).edges : Multiset MEdgeRec) =
        ((compose_all gs').edges : Multiset MEdgeRec) ∧
      add_transfer_edges (compose_all gs).nodes modes =
        add_transfer_edges (compose_all gs').nodes modes := by
  intro gs gs' modes hperm hids hmodes howned
  have hsymids : Symmetric idsDisjoint := by
    intro a b hab n hn m hm
    exact (hab m hm n hn).symm
  have hsymmodes : Symmetric modesDisjoint := by
    intro a b hab n hn m hm
    exact (hab m hm n hn).symm
  have hids' := (hperm.pairwise_iff @hsymids).mp hids
  have howned' : ∀ g ∈ gs', edgesOwned g :=
    fun g hg => howned g (hperm.mem_iff.mpr hg)
  have hempty : ∀ h : List MGraph, ∀ g ∈ h, idsDisjoint (⟨[], []⟩ : MGraph) g := by
    intro h g _ n hn
    exact absurd hn (List.not_mem_nil n)
  have heo : edgesOwned (⟨[], []⟩ : MGraph) :=
    fun e he => absurd he (List.not_mem_nil e)
  obtain ⟨hn1, he1⟩ := compose_all_flat gs ⟨[], []⟩ (hempty gs) hids heo howned
  obtain ⟨hn2, he2⟩ := compose_all_flat gs' ⟨[], []⟩ (hempty gs') hids' heo howned'
  rw [List.nil_append] at hn1 he1 hn2 he2
  have hcn1 : (compose_all gs).nodes = concatAll (gs.map MGraph.nodes) := hn1
  have hcn2 : (compose_all gs').nodes = concatAll (gs'.map MGraph.nodes) := hn2
  have hce1 : (compose_all gs).edges = concatAll (gs.map MGraph.edges) := he1
  have hce2 : (compose_all gs').edges = concatAll (gs'.map MGraph.edges) := he2
  refine ⟨?_, ?_, ?_⟩
  · rw [hcn1, hcn2]
    exact Multiset.coe_eq_coe.mpr (concatAll_perm (hperm.map MGraph.nodes))
  · rw [hce1, hce2]
    exact Multiset.coe_eq_coe.mpr (concatAll_perm (hperm.map MGraph.edges))
  · rw [hcn1, hcn2]
    apply add_transfer_edges_congr
    intro m
    unfold nodesByMode
    rw [filter_concatAll, filter_concatAll, List.map_map, List.map_map]
    apply concatAll_eq_of_perm (hperm.map _)
    apply List.Pairwise.map _ _ hmodes
    intro a b hab
    by_contra hcon
    push_neg at hcon
    obtain ⟨hane, hbne⟩ := hcon
    obtain ⟨x, hx⟩ := List.exists_mem_of_ne_nil _ hane
    obtain ⟨y, hy⟩ := List.exists_mem_of_ne_nil _ hbne
    obtain ⟨hxmem, hxp⟩ := List.mem_filter.mp hx
    obtain ⟨hymem, hyp⟩ := List.mem_filter.mp hy
    exact hab x hxmem y hymem
      ((of_decide_eq_true hxp).trans (of_decide_eq_true hyp).symm)

/-- Concrete car graph for the C6 witness. -/
def c6wG1 : MGraph :=
  ⟨[⟨"car_1", some 0, some 0, some "car", none⟩],
   [⟨"car_1", "car_1", 0, some "car", some 10, none, none⟩]⟩

/-- Concrete transit graph for the C6 witness. -/
def c6wG2 : MGraph :=
  ⟨[⟨"stop_1", some 0, some 0, some "transit", none⟩], []⟩

lemma c6w_ids : List.Pairwise idsDisjoint [c6wG1, c6wG2] := by
  refine List.Pairwise.cons ?_ (List.pairwise_singleton _ _)
  intro g hg n hn m hm
  rw [List.mem_singleton] at hg
  subst hg
  simp only [c6wG1, c6wG2, List.mem_singleton] at hn hm
  subst hn
  subst hm
  decide

lemma c6w_modes : List.Pairwise modesDisjoint [c6wG1, c6wG2] := by
  refine List.Pairwise.cons ?_ (List.pairwise_singleton _ _)
  intro g hg n hn m hm
  rw [List.mem_singleton] at hg
  subst hg
  simp only [c6wG1, c6wG2, List.mem_singleton] at hn hm
  subst hn
  subst hm
  decide

lemma c6w_owned : ∀ g ∈ [c6wG1, c6wG2], edgesOwned g := by
  intro g hg e he
  rcases List.mem_cons.mp hg with rfl | hg
  · simp only [c6wG1, List.mem_singleton] at he
    subst he
    decide
  · rw [List.mem_singleton] at hg
    subst hg
    exact absurd he (List.not_mem_nil e)

/-- Witness for C6: the theorem applied to two concrete single-node graphs
and the transposition of their order. -/
theorem c6_merge_commutative_witness :
    [c6wG1, c6wG2].Perm [c6wG2, c6wG1] ∧
    (((compose_all [c6wG1, c6wG2]).nodes : Multiset MNode) =
       ((compose_all [c6wG2, c6wG1]).nodes : Multiset MNode) ∧
     ((compose_all [c6wG1, c6wG2]).edges : Multiset MEdgeRec) =
       ((compose_all [c6wG2, c6wG1]).edges : Multiset MEdgeRec) ∧
     add_transfer_edges (compose_all [c6wG1, c6wG2]).nodes ["car", "gtfs"] =
       add_transfer_edges (compose_all [c6wG2, c6wG1]).nodes ["car", "gtfs"]) :=
  ⟨List.Perm.swap c6wG2 c6wG1 [],
   c6_merge_commutative [c6wG1, c6wG2] [c6wG2, c6wG1] ["car", "gtfs"]
     (List.Perm.swap c6wG2 c6wG1 []) c6w_ids c6w_modes c6w_owned⟩
